import Mathlib

/-!
Verification of the Trayon virtual try-on client.

The definitions below are a shallow embedding of the application code:
`App.tsx` (view/session state machine, codec helpers, history store) and the
AI gateway service module (`getClothingSuggestions`, `generateClothingImage`,
`removeBackground`, `virtualTryOn`).  Browser built-ins that the code
delegates to (FileReader base64 encoding, `atob`, `String.prototype.split`,
the regex `/:(.*?);/`) are modelled from their documented behaviour.
JavaScript strings are modelled as `String`, byte arrays as `List Nat` with
values below 256, and the suggestion-image object as an association list
whose operations mirror JavaScript object update and `delete`.
-/

namespace Trayon

/-- The five screens of the view state machine in `App.tsx`. -/
inductive View
  | start
  | tryOn
  | history
  | result
  | loading
deriving DecidableEq

/-- `type StyleTheme = 'Photorealistic' | 'Magazine Cover' | 'Artistic'`. -/
inductive StyleTheme
  | photorealistic
  | magazineCover
  | artistic
deriving DecidableEq

/-- `type Language = 'en' | 'ru'`. -/
inductive Language
  | en
  | ru
deriving DecidableEq

/-- A browser `File`: raw bytes, file name, MIME type (`file.type`). -/
structure FileData where
  bytes : List Nat
  name : String
  mime : String
deriving DecidableEq

/-- `UploadedImage` from `types.ts`: the selected `File` plus its preview URL. -/
structure UploadedImage where
  file : FileData
  previewUrl : String
deriving DecidableEq

/-- `interface HistoryItem` in `App.tsx`: three data-URL strings. -/
structure HistoryItem where
  person : String
  clothing : String
  result : String
deriving DecidableEq

/-- `interface SavedSession` in `App.tsx`. -/
structure SavedSession where
  personImage : String
  clothingImage : String
  removeBgEnabled : Bool
  styleTheme : StyleTheme
deriving DecidableEq

/-- The `{ data, mimeType }` object returned by every gateway image operation. -/
structure ImgResult where
  data : String
  mimeType : String
deriving DecidableEq

/-! ## Base64 codec

Modelled from the spec: `fileToBase64` delegates the actual encoding to the
browser's `FileReader.readAsDataURL`, and `dataURLtoFile` delegates decoding
to the browser's `atob`; neither implementation is in the repository, so
standard RFC 4648 base64 with `=` padding is used here. -/

/-- The standard base64 alphabet, index 0 to 63. -/
def base64Chars : List Char :=
  "ABCDEFGHIJKLMNOPQRSTUVWXYZabcdefghijklmnopqrstuvwxyz0123456789+/".toList

/-- Character of a 6-bit group. -/
def b64CharOf (i : Nat) : Char := base64Chars.getD i 'A'

/-- Index of a character in the base64 alphabet, `none` when absent. -/
def b64IndexAux : List Char → Char → Nat → Option Nat
  | [], _, _ => none
  | c :: rest, d, k => if c = d then some k else b64IndexAux rest d (k + 1)

/-- Index of a character in the base64 alphabet. -/
def b64Index (c : Char) : Option Nat := b64IndexAux base64Chars c 0

/-- Base64-encode a byte list (values below 256), with `=` padding. -/
def base64EncodeList : List Nat → List Char
  | [] => []
  | [b1] => [b64CharOf (b1 / 4), b64CharOf (b1 % 4 * 16), '=', '=']
  | [b1, b2] =>
      [b64CharOf (b1 / 4), b64CharOf (b1 % 4 * 16 + b2 / 16),
       b64CharOf (b2 % 16 * 4), '=']
  | b1 :: b2 :: b3 :: rest =>
      b64CharOf (b1 / 4) :: b64CharOf (b1 % 4 * 16 + b2 / 16) ::
      b64CharOf (b2 % 16 * 4 + b3 / 64) :: b64CharOf (b3 % 64) ::
      base64EncodeList rest

/-- Base64-decode (the browser's `atob`); `none` models the
`InvalidCharacterError` that `atob` raises on malformed input. -/
def base64DecodeList : List Char → Option (List Nat)
  | [] => some []
  | c1 :: c2 :: c3 :: c4 :: rest =>
    match b64Index c1, b64Index c2 with
    | some i1, some i2 =>
      if c3 = '=' then
        if c4 = '=' ∧ rest = [] then some [i1 * 4 + i2 / 16] else none
      else
        match b64Index c3 with
        | none => none
        | some i3 =>
          if c4 = '=' then
            if rest = [] then some [i1 * 4 + i2 / 16, i2 % 16 * 16 + i3 / 4]
            else none
          else
            match b64Index c4, base64DecodeList rest with
            | some i4, some bs =>
                some ((i1 * 4 + i2 / 16) :: (i2 % 16 * 16 + i3 / 4) ::
                      (i3 % 4 * 64 + i4) :: bs)
            | _, _ => none
    | _, _ => none
  | _ => none

/-! ## String helpers used by the codec functions -/

/-- JavaScript `String.prototype.split` restricted to a single-character
separator, on character lists. -/
def splitOnCharList (sep : Char) : List Char → List (List Char)
  | [] => [[]]
  | c :: rest =>
    match splitOnCharList sep rest with
    | [] => [[]]
    | h :: t => if c = sep then [] :: h :: t else (c :: h) :: t

/-- `dataurl.split(',')`: the source always splits on a comma. -/
def splitOnComma (s : String) : List String :=
  (splitOnCharList ',' s.toList).map String.mk

/-- Non-greedy capture for `/:(.*?);/` starting right after a `:`: the
shortest run up to the first `;`.  A newline aborts the attempt because the
regex dot does not match line terminators. -/
def capToSemi : List Char → Option (List Char)
  | [] => none
  | c :: rest =>
    if c = ';' then some []
    else if c = '\n' then none
    else (capToSemi rest).map (c :: ·)

/-- Leftmost match of `/:(.*?);/`: try every `:` as a start position. -/
def regexColonSemi : List Char → Option (List Char)
  | [] => none
  | c :: rest =>
    if c = ':' then
      match capToSemi rest with
      | some cap => some cap
      | none => regexColonSemi rest
    else regexColonSemi rest

/-- `arr[0].match(/:(.*?);/)`, returning the captured MIME segment. -/
def mimeMatch (s : String) : Option String :=
  (regexColonSemi s.toList).map String.mk

/-! ## The two codec helpers at the top of `App.tsx` -/

/-- `fileToBase64`: `FileReader.readAsDataURL` produces
`data:<mime>;base64,<payload>`; the code takes `result.split(',')[1]` and
rejects when that part is falsy. -/
def fileToBase64 (file : FileData) : Except String String :=
  let result :=
    "data:" ++ file.mime ++ ";base64," ++ String.mk (base64EncodeList file.bytes)
  let b64 := (splitOnComma result).getD 1 ""
  if b64 = "" then Except.error "Failed to read base64 string from file."
  else Except.ok b64

/-- Outcome of `dataURLtoFile`: a `File`, the explicit `null` returns, or an
exception escaping from `atob` (which the function does not catch). -/
inductive DataUrlResult
  | ok (file : FileData)
  | nullResult
  | exn
deriving DecidableEq

/-- `dataURLtoFile(dataurl, filename)`: split on commas, return `null` when
there is no payload part or the MIME regex does not match, decode the payload
with `atob` (an `atob` failure raises), and wrap bytes, name and MIME as a
`File`. -/
def dataURLtoFile (dataurl : String) (filename : String) : DataUrlResult :=
  let arr := splitOnComma dataurl
  if arr.length < 2 then .nullResult
  else
    match mimeMatch (arr.getD 0 "") with
    | none => .nullResult
    | some mime =>
      match base64DecodeList (arr.getD 1 "").toList with
      | none => .exn
      | some bytes => .ok ⟨bytes, filename, mime⟩

/-! ## User-facing message texts

Modelled from the spec: the `translations` module referenced by `App.tsx` is
not among the sources; the spec only requires the messages to exist and be
surfaced, so representative non-empty texts are used (English wording taken
from the earlier revision of the component that inlined them). -/

/-- `t('errorNeedBothImagesUpload')`: validation message of `handleTryOn`. -/
def errorNeedBothImagesUpload : String :=
  "Please upload both a person and a clothing item."

/-- `t('errorUnexpected')`: fallback when a thrown error has no message. -/
def errorUnexpected : String := "An unexpected error occurred."

/-- `t('errorNeedBothImages')`: validation message of `handleSaveSession`. -/
def errorNeedBothImages : String :=
  "Please upload both images before saving."

/-- `t('errorSaveSession')`: shown when persisting the session fails. -/
def errorSaveSession : String := "Failed to save the session."

/-! ## JavaScript object / localStorage model

`suggestionImages` is a plain object keyed by suggestion name, and
localStorage is a string-keyed store; both are modelled as association
lists.  `objSet` mirrors property assignment (replace in place or append),
`objDelete` mirrors the `delete` operator, `objGet` mirrors property read. -/

/-- Property assignment `{...m, [k]: v}` / `store.setItem(k, v)`. -/
def objSet {V : Type} : List (String × V) → String → V → List (String × V)
  | [], k, v => [(k, v)]
  | (k1, v1) :: rest, k, v =>
    if k1 = k then (k, v) :: rest else (k1, v1) :: objSet rest k v

/-- The `delete` operator / `store.removeItem(k)`. -/
def objDelete {V : Type} : List (String × V) → String → List (String × V)
  | [], _ => []
  | (k1, v1) :: rest, k =>
    if k1 = k then rest else (k1, v1) :: objDelete rest k

/-- Property read `m[k]`. -/
def objGet {V : Type} : List (String × V) → String → Option V
  | [], _ => none
  | (k1, v1) :: rest, k => if k1 = k then some v1 else objGet rest k

/-! ## AI gateway and the try-on pipeline of `handleTryOn` -/

/-- One request issued to the gateway during a try-on, with its arguments. -/
inductive GatewayCall
  | removeBackground (data : String) (mime : String)
  | virtualTryOn (personData : String) (personMime : String)
      (clothingData : String) (clothingMime : String) (theme : StyleTheme)
deriving DecidableEq

/-- The external gateway as an oracle: each operation either returns an
image result or fails with an error message (a thrown `Error`). -/
structure Gateway where
  removeBackground : String → String → Except String ImgResult
  virtualTryOn : String → String → String → String → StyleTheme →
    Except String ImgResult

/-- The in-memory state of the `App` component that the settled claims
concern (suggestion state is modelled separately). -/
structure AppState where
  personImage : Option UploadedImage
  clothingImage : Option UploadedImage
  generatedImage : Option (String × String)
  isLoading : Bool
  loadingText : String
  error : Option String
  view : View
  history : List HistoryItem
  removeBgEnabled : Bool
  styleTheme : StyleTheme
  savedSession : Option SavedSession
deriving DecidableEq

/-- The body of the `try` block of `handleTryOn`: encode the person image,
optionally call `removeBackground` (replacing the person data and MIME with
its output), encode the clothing image, then call `virtualTryOn`.  Returns
the outcome together with the list of gateway calls actually issued. -/
def runTryOnPipeline (gw : Gateway) (p c : UploadedImage) (removeBg : Bool)
    (theme : StyleTheme) : Except String ImgResult × List GatewayCall :=
  match fileToBase64 p.file with
  | .error e => (.error e, [])
  | .ok personBase64 =>
    let step1 : Except String (String × String) × List GatewayCall :=
      if removeBg then
        match gw.removeBackground personBase64 p.file.mime with
        | .ok r => (.ok (r.data, r.mimeType),
                    [.removeBackground personBase64 p.file.mime])
        | .error e => (.error e, [.removeBackground personBase64 p.file.mime])
      else (.ok (personBase64, p.file.mime), [])
    match step1 with
    | (.error e, calls) => (.error e, calls)
    | (.ok (pd, pm), calls) =>
      match fileToBase64 c.file with
      | .error e => (.error e, calls)
      | .ok clothingBase64 =>
        match gw.virtualTryOn pd pm clothingBase64 c.file.mime theme with
        | .ok r =>
            (.ok r, calls ++ [.virtualTryOn pd pm clothingBase64 c.file.mime theme])
        | .error e =>
            (.error e, calls ++ [.virtualTryOn pd pm clothingBase64 c.file.mime theme])

/-- `handleTryOn`: reject when an image is missing; otherwise enter the
loading view, run the pipeline, and on success record the result and prepend
a history entry before showing the result view, or on any failure surface
the error message and drop back to the try-on view.  The `finally` block
clears the loading flag and text on both paths. -/
def handleTryOn (s : AppState) (gw : Gateway) : AppState × List GatewayCall :=
  match s.personImage, s.clothingImage with
  | some p, some c =>
    let s1 := { s with isLoading := true, error := none,
                       generatedImage := none, view := View.loading }
    match runTryOnPipeline gw p c s.removeBgEnabled s.styleTheme with
    | (.ok r, calls) =>
      let resultUrl := "data:" ++ r.mimeType ++ ";base64," ++ r.data
      let newHistoryItem : HistoryItem :=
        ⟨p.previewUrl, c.previewUrl, resultUrl⟩
      ({ s1 with generatedImage := some (resultUrl, r.mimeType),
                 history := newHistoryItem :: s1.history,
                 view := View.result, isLoading := false, loadingText := "" },
       calls)
    | (.error e, calls) =>
      ({ s1 with error := some (if e = "" then errorUnexpected else e),
                 view := View.tryOn, isLoading := false, loadingText := "" },
       calls)
  | _, _ => ({ s with error := some errorNeedBothImagesUpload }, [])

/-! ## Suggestion gallery of `handleGetSuggestions` -/

/-- An entry of the `suggestionImages` object: the `'loading'` sentinel or
the `{url, mimeType, file}` payload. -/
inductive SuggestionEntry
  | loading
  | ready (url : String) (mimeType : String) (file : FileData)
deriving DecidableEq

/-- `` `${suggestion.name.replace(/\s+/g, '-')}.png` ``: each maximal
whitespace run becomes a single dash. -/
def collapseWsAux : Bool → List Char → List Char
  | _, [] => []
  | prevWs, c :: rest =>
    if c.isWhitespace then
      if prevWs then collapseWsAux true rest
      else '-' :: collapseWsAux true rest
    else c :: collapseWsAux false rest

/-- File name given to a generated suggestion image. -/
def suggestionFileName (name : String) : String :=
  String.mk (collapseWsAux false name.toList) ++ ".png"

/-- `` `data:${mimeType};base64,${data}` ``. -/
def dataUrlOf (r : ImgResult) : String :=
  "data:" ++ r.mimeType ++ ";base64," ++ r.data

/-- Settlement of one per-suggestion generation promise: either the
`generateClothingImage` call resolved with an image, or it rejected. -/
inductive SettleEvent
  | success (name : String) (res : ImgResult)
  | failure (name : String)
deriving DecidableEq

/-- The suggestion name an event concerns. -/
def SettleEvent.name : SettleEvent → String
  | .success n _ => n
  | .failure n => n

/-- Effect of one settled generation on `suggestionImages`: a resolved call
stores the parsed file under the suggestion's name (doing nothing when
`dataURLtoFile` returns `null`; an `atob` exception rejects the promise so
the `catch` deletes the entry), and a rejected call deletes the entry. -/
def applySettle (m : List (String × SuggestionEntry)) :
    SettleEvent → List (String × SuggestionEntry)
  | .success n res =>
    let imageUrl := dataUrlOf res
    match dataURLtoFile imageUrl (suggestionFileName n) with
    | .ok f => objSet m n (.ready imageUrl res.mimeType f)
    | .nullResult => m
    | .exn => objDelete m n
  | .failure n => objDelete m n

/-- The synchronous `forEach` pass that marks every suggestion `'loading'`
before any generation settles. -/
def initSuggestionImages (names : List String) :
    List (String × SuggestionEntry) :=
  names.foldl (fun m n => objSet m n SuggestionEntry.loading) []

/-- Fold the settlements over the map in their resolution order. -/
def settleAll (m : List (String × SuggestionEntry))
    (events : List SettleEvent) : List (String × SuggestionEntry) :=
  events.foldl applySettle m

/-! ## The suggestions request of the gateway service -/

/-- The request `getClothingSuggestions` issues to the external model:
model name, `contents`, and the language-dependent system instruction (the
response schema is a constant and is omitted). -/
structure SuggestionsRequest where
  model : String
  contents : String
  systemInstruction : String
deriving DecidableEq

/-- The stylist system instruction selected by `lang`. -/
def suggestionsSystemInstruction : Language → String
  | .ru => "Ты — креативный и знающий модный стилист. На основе запроса пользователя предложи три различных и стильных варианта одежды. Для каждого предложения укажи краткое название и подробное, привлекательное описание, подходящее для создания изображения. Отвечай на русском языке."
  | .en => "You are a creative and knowledgeable fashion stylist. Based on the user's request, provide three distinct and stylish clothing item suggestions. For each suggestion, provide a concise name and a detailed, appealing description suitable for generating an image. Respond in English."

/-- The request built by `getClothingSuggestions(prompt, lang)` in the
gateway service: its declared parameters are only the prompt and the
language. -/
def getClothingSuggestionsRequest (prompt : String) (lang : Language) :
    SuggestionsRequest :=
  { model := "gemini-2.5-pro", contents := prompt,
    systemInstruction := suggestionsSystemInstruction lang }

/-- The request resulting from the call site in `handleGetSuggestions`,
which invokes `getClothingSuggestions(finalPrompt, language, preferredColors)`
with three arguments: JavaScript binds only the two declared parameters, so
the third argument is dropped. -/
def issuedSuggestionsRequest (prompt : String) (lang : Language)
    (_preferredColors : String) : SuggestionsRequest :=
  getClothingSuggestionsRequest prompt lang

/-! ## Session save / load / reset and history deletion -/

/-- `JSON.stringify(session)` (browser builtin, modelled from the spec as an
encoding of the four snapshot fields; no settled claim reads it back). -/
def encodeSession (sess : SavedSession) : String :=
  "\x7bpersonImage:" ++ sess.personImage ++ ",clothingImage:" ++
    sess.clothingImage ++ ",removeBgEnabled:" ++
    (if sess.removeBgEnabled then "true" else "false") ++ ",styleTheme:" ++
    (match sess.styleTheme with
     | .photorealistic => "Photorealistic"
     | .magazineCover => "Magazine Cover"
     | .artistic => "Artistic") ++ "\x7d"

/-- `handleSaveSession`: require both images, snapshot the two preview URLs,
the background-removal flag and the style theme, and write the snapshot to
the single `trayonSavedSession` key.  `writeOk` models whether
`localStorage.setItem` succeeds; on failure the `catch` sets a user-visible
error and the in-memory slot is left untouched. -/
def handleSaveSession (s : AppState) (store : List (String × String))
    (writeOk : Bool) : AppState × List (String × String) :=
  match s.personImage, s.clothingImage with
  | some p, some c =>
    let session : SavedSession :=
      ⟨p.previewUrl, c.previewUrl, s.removeBgEnabled, s.styleTheme⟩
    if writeOk then
      ({ s with savedSession := some session },
       objSet store "trayonSavedSession" (encodeSession session))
    else ({ s with error := some errorSaveSession }, store)
  | _, _ => ({ s with error := some errorNeedBothImages }, store)

/-- `handleLoadSession`: when a saved session exists, parse both preview
URLs first; restore each image only when its parse yields a file, then
restore the flag and the theme and switch to the try-on view.  An `atob`
exception in either parse escapes the handler before any state update. -/
def handleLoadSession (s : AppState) : AppState :=
  match s.savedSession with
  | none => s
  | some sess =>
    match dataURLtoFile sess.personImage "person.png",
          dataURLtoFile sess.clothingImage "clothing.png" with
    | .exn, _ => s
    | _, .exn => s
    | personFile, clothingFile =>
      let s1 :=
        match personFile with
        | .ok f => { s with personImage := some ⟨f, sess.personImage⟩ }
        | _ => s
      let s2 :=
        match clothingFile with
        | .ok f => { s1 with clothingImage := some ⟨f, sess.clothingImage⟩ }
        | _ => s1
      { s2 with removeBgEnabled := sess.removeBgEnabled,
                styleTheme := sess.styleTheme, view := View.tryOn }

/-- `handleStartNew`: clear the in-memory editing state, then remove the two
persisted image keys.  The two `localStorage.removeItem` calls are not
wrapped in `try`/`catch`, so a storage failure there escapes the handler;
`removeOk` models whether the removals succeed. -/
def handleStartNew (s : AppState) (store : List (String × String))
    (removeOk : Bool) :
    Except String (AppState × List (String × String)) :=
  let s1 := { s with personImage := none, clothingImage := none,
                     generatedImage := none, error := none,
                     styleTheme := StyleTheme.photorealistic,
                     removeBgEnabled := true }
  if removeOk then
    .ok (s1, objDelete (objDelete store "trayonPersonImage")
              "trayonClothingImage")
  else .error "localStorage.removeItem failed inside handleStartNew"

/-- `handleDeleteHistoryItem`: after the blocking confirmation, keep every
entry whose position differs from `indexToDelete`. -/
def handleDeleteHistoryItem (history : List HistoryItem)
    (indexToDelete : Nat) (confirmed : Bool) : List HistoryItem :=
  if confirmed then
    ((history.enum.filter (fun p => p.1 != indexToDelete)).map Prod.snd)
  else history

/-! ## Concrete fixtures used by the witness theorems -/

/-- A gateway oracle whose operations always succeed. -/
def testGateway : Gateway where
  removeBackground := fun _ _ => .ok ⟨"UkVNT1ZFRA==", "image/webp"⟩
  virtualTryOn := fun _ _ _ _ _ => .ok ⟨"UkVTVUxU", "image/png"⟩

/-- A sample uploaded person photo. -/
def samplePerson : UploadedImage :=
  ⟨⟨[1, 2, 3], "me.jpg", "image/jpeg"⟩, "blob:person-preview"⟩

/-- A sample uploaded clothing photo. -/
def sampleClothing : UploadedImage :=
  ⟨⟨[4, 5, 6], "dress.png", "image/png"⟩, "blob:clothing-preview"⟩

/-- An editing state with both images present. -/
def sampleState : AppState where
  personImage := some samplePerson
  clothingImage := some sampleClothing
  generatedImage := none
  isLoading := false
  loadingText := ""
  error := none
  view := View.tryOn
  history := [⟨"p0", "c0", "r0"⟩]
  removeBgEnabled := true
  styleTheme := StyleTheme.photorealistic
  savedSession := none

/-- The same state with the background-removal toggle off. -/
def sampleStateNoBg : AppState :=
  { sampleState with removeBgEnabled := false }

/-- A state in which the clothing image is missing. -/
def sampleStateMissing : AppState :=
  { sampleState with clothingImage := none }

/-! # Theorems -/

section Theorems

/-! ## List helper lemmas for the index-filter deletion -/

theorem enumFrom_map_snd {α : Type} (l : List α) :
    ∀ n : Nat, (List.enumFrom n l).map Prod.snd = l := by
  induction l with
  | nil => intro n; rfl
  | cons a l ih => intro n; simp [List.enumFrom, ih (n + 1)]

theorem filter_ne_enumFrom {α : Type} (l : List α) :
    ∀ (n k : Nat), k < n →
      (List.enumFrom n l).filter (fun p => p.1 != k) = List.enumFrom n l := by
  induction l with
  | nil => intro n k _; rfl
  | cons a l ih =>
    intro n k hk
    have hne : (n != k) = true := by simp [bne_iff_ne]; omega
    simp [List.enumFrom, List.filter_cons, hne, ih (n + 1) k (by omega)]

theorem filter_ne_enumFrom_map_snd {α : Type} (l : List α) :
    ∀ (n i : Nat),
      ((List.enumFrom n l).filter (fun p => p.1 != (n + i))).map Prod.snd =
        if i < l.length then l.take i ++ l.drop (i + 1) else l := by
  induction l with
  | nil => intro n i; simp [List.enumFrom]
  | cons a l ih =>
    intro n i
    cases i with
    | zero =>
      have hkeep := filter_ne_enumFrom l (n + 1) n (by omega)
      have hsnd := enumFrom_map_snd l (n + 1)
      simp [List.enumFrom, List.filter_cons, hkeep, hsnd]
    | succ j =>
      have harith : n + (j + 1) = (n + 1) + j := by omega
      have hbne : (n != (n + 1) + j) = true := by
        simp only [bne_iff_ne, ne_eq]
        omega
      rw [harith]
      simp only [List.enumFrom, List.filter_cons]
      rw [if_pos hbne]
      simp only [List.map_cons, ih (n + 1) j]
      by_cases hj : j < l.length
      · have hj1 : j + 1 < (a :: l).length := by simp; omega
        simp [hj, hj1]
      · have hj1 : ¬ (j + 1 < (a :: l).length) := by simp; omega
        simp [hj, hj1]

/-- C9: deleting the history item at a valid index `i` (after confirmation)
yields the list that omits exactly the element at position `i`, keeping all
other elements in their relative order, so the length drops by one. -/
theorem deleteHistoryItem_removes_exactly_index (h : List HistoryItem)
    (i : Nat) (hi : i < h.length) :
    handleDeleteHistoryItem h i true = h.take i ++ h.drop (i + 1) ∧
    (handleDeleteHistoryItem h i true).length = h.length - 1 := by
  have key := filter_ne_enumFrom_map_snd h 0 i
  simp only [Nat.zero_add, hi, if_pos] at key
  have hmain : handleDeleteHistoryItem h i true = h.take i ++ h.drop (i + 1) := by
    simpa [handleDeleteHistoryItem, List.enum] using key
  refine ⟨hmain, ?_⟩
  rw [hmain]
  simp [List.length_take, List.length_drop]
  omega

/-- Witness for C9 at a concrete three-element history and index 1. -/
theorem deleteHistoryItem_removes_exactly_index_witness :
    (1 : Nat) < ([⟨"pa", "ca", "ra"⟩, ⟨"pb", "cb", "rb"⟩,
                  ⟨"pc", "cc", "rc"⟩] : List HistoryItem).length ∧
    handleDeleteHistoryItem [⟨"pa", "ca", "ra"⟩, ⟨"pb", "cb", "rb"⟩,
        ⟨"pc", "cc", "rc"⟩] 1 true =
      ([⟨"pa", "ca", "ra"⟩, ⟨"pb", "cb", "rb"⟩,
        ⟨"pc", "cc", "rc"⟩] : List HistoryItem).take 1 ++
      ([⟨"pa", "ca", "ra"⟩, ⟨"pb", "cb", "rb"⟩,
        ⟨"pc", "cc", "rc"⟩] : List HistoryItem).drop 2 :=
  ⟨by decide,
   (deleteHistoryItem_removes_exactly_index
      [⟨"pa", "ca", "ra"⟩, ⟨"pb", "cb", "rb"⟩, ⟨"pc", "cc", "rc"⟩] 1
      (by decide)).1⟩

/-! ## Try-on pipeline claims -/

/-- C3: when either image is missing, `handleTryOn` rejects with the
validation message, issues no gateway call at all, and leaves the state
otherwise untouched, so the view stays `tryOn` and never reaches
`loading`. -/
theorem tryOn_missing_image_rejects (s : AppState) (gw : Gateway)
    (hmiss : s.personImage = none ∨ s.clothingImage = none)
    (hview : s.view = View.tryOn) :
    handleTryOn s gw = ({ s with error := some errorNeedBothImagesUpload }, []) ∧
    (handleTryOn s gw).2 = [] ∧
    (handleTryOn s gw).1.view = View.tryOn := by
  have hmain : handleTryOn s gw =
      ({ s with error := some errorNeedBothImagesUpload }, []) := by
    rcases hmiss with h | h
    · cases hc : s.clothingImage <;> simp [handleTryOn, h, hc]
    · cases hp : s.personImage <;> simp [handleTryOn, h, hp]
  exact ⟨hmain, by rw [hmain], by rw [hmain]; exact hview⟩

/-- Witness for C3: a state missing the clothing image. -/
theorem tryOn_missing_image_rejects_witness :
    (sampleStateMissing.personImage = none ∨
      sampleStateMissing.clothingImage = none) ∧
    (handleTryOn sampleStateMissing testGateway).2 = [] ∧
    (handleTryOn sampleStateMissing testGateway).1.view = View.tryOn :=
  ⟨Or.inr rfl,
   (tryOn_missing_image_rejects sampleStateMissing testGateway
      (Or.inr rfl) rfl).2⟩

/-- C1: with both images present and the toggle enabled, the issued call
trace is exactly one `removeBackground` call followed by one `virtualTryOn`
call whose person data and MIME type are the output of the removal call;
with the toggle disabled the trace is exactly one `virtualTryOn` call on the
original person image. -/
theorem tryOn_call_trace (s : AppState) (gw : Gateway)
    (p c : UploadedImage) (pb cb : String) (r : ImgResult)
    (hp : s.personImage = some p) (hc : s.clothingImage = some c)
    (hpb : fileToBase64 p.file = .ok pb)
    (hcb : fileToBase64 c.file = .ok cb) :
    (s.removeBgEnabled = true →
      gw.removeBackground pb p.file.mime = .ok r →
      (handleTryOn s gw).2 =
        [GatewayCall.removeBackground pb p.file.mime,
         GatewayCall.virtualTryOn r.data r.mimeType cb c.file.mime
           s.styleTheme]) ∧
    (s.removeBgEnabled = false →
      (handleTryOn s gw).2 =
        [GatewayCall.virtualTryOn pb p.file.mime cb c.file.mime
           s.styleTheme]) := by
  constructor
  · intro hbg hrb
    cases hvt : gw.virtualTryOn r.data r.mimeType cb c.file.mime s.styleTheme <;>
      simp [handleTryOn, runTryOnPipeline, hp, hc, hpb, hcb, hbg, hrb, hvt]
  · intro hbg
    cases hvt : gw.virtualTryOn pb p.file.mime cb c.file.mime s.styleTheme <;>
      simp [handleTryOn, runTryOnPipeline, hp, hc, hpb, hcb, hbg, hvt]

/-- Witness for C1 on both toggle positions, with the always-successful
gateway. -/
theorem tryOn_call_trace_witness :
    (handleTryOn sampleState testGateway).2 =
      [GatewayCall.removeBackground "AQID" "image/jpeg",
       GatewayCall.virtualTryOn "UkVNT1ZFRA==" "image/webp" "BAUG"
         "image/png" StyleTheme.photorealistic] ∧
    (handleTryOn sampleStateNoBg testGateway).2 =
      [GatewayCall.virtualTryOn "AQID" "image/jpeg" "BAUG" "image/png"
         StyleTheme.photorealistic] :=
  ⟨(tryOn_call_trace sampleState testGateway samplePerson sampleClothing
      "AQID" "BAUG" ⟨"UkVNT1ZFRA==", "image/webp"⟩ rfl rfl rfl rfl).1
      rfl rfl,
   (tryOn_call_trace sampleStateNoBg testGateway samplePerson sampleClothing
      "AQID" "BAUG" ⟨"UkVNT1ZFRA==", "image/webp"⟩ rfl rfl rfl rfl).2
      rfl⟩

/-- C2: with both images present, a successful pipeline prepends exactly one
new history entry built from the two previews and the result data URL and
moves to the `result` view; a failing pipeline leaves history unchanged,
moves back to the `tryOn` view, and sets a non-empty error message. -/
theorem tryOn_history_update (s : AppState) (gw : Gateway)
    (p c : UploadedImage) (r : ImgResult) (e : String)
    (calls ecalls : List GatewayCall)
    (hp : s.personImage = some p) (hc : s.clothingImage = some c) :
    (runTryOnPipeline gw p c s.removeBgEnabled s.styleTheme = (.ok r, calls) →
      (handleTryOn s gw).1.history =
        (⟨p.previewUrl, c.previewUrl,
          "data:" ++ r.mimeType ++ ";base64," ++ r.data⟩ : HistoryItem) ::
          s.history ∧
      (handleTryOn s gw).1.view = View.result) ∧
    (runTryOnPipeline gw p c s.removeBgEnabled s.styleTheme =
        (.error e, ecalls) →
      (handleTryOn s gw).1.history = s.history ∧
      (handleTryOn s gw).1.view = View.tryOn ∧
      ∃ m, (handleTryOn s gw).1.error = some m ∧ m ≠ "") := by
  constructor
  · intro hok
    simp [handleTryOn, hp, hc, hok]
  · intro herr
    refine ⟨by simp [handleTryOn, hp, hc, herr], by simp [handleTryOn, hp, hc, herr], ?_⟩
    refine ⟨if e = "" then errorUnexpected else e, by simp [handleTryOn, hp, hc, herr], ?_⟩
    by_cases he : e = "" <;> simp [he, errorUnexpected]

/-- Witness for C2: the successful branch at the sample state. -/
theorem tryOn_history_update_witness :
    (handleTryOn sampleState testGateway).1.history =
      (⟨"blob:person-preview", "blob:clothing-preview",
        "data:image/png;base64,UkVTVUxU"⟩ : HistoryItem) ::
        sampleState.history ∧
    (handleTryOn sampleState testGateway).1.view = View.result :=
  (tryOn_history_update sampleState testGateway samplePerson sampleClothing
      ⟨"UkVTVUxU", "image/png"⟩ "" [GatewayCall.removeBackground "AQID" "image/jpeg",
        GatewayCall.virtualTryOn "UkVNT1ZFRA==" "image/webp" "BAUG"
          "image/png" StyleTheme.photorealistic] []
      rfl rfl).1 rfl

/-! ## The suggestions request -/

/-- C5 (code-bug evidence): the request issued by the suggestions call site
is a function of the prompt and the language only — the service declares
`getClothingSuggestions(prompt, lang)`, so the `preferredColors` argument
passed by `handleGetSuggestions` is dropped and two different preferred-color
texts produce the identical request. -/
theorem suggestions_request_ignores_preferred_colors :
    issuedSuggestionsRequest "casual summer outfit" Language.en "red" =
      issuedSuggestionsRequest "casual summer outfit" Language.en "blue" ∧
    issuedSuggestionsRequest "casual summer outfit" Language.en "red" =
      getClothingSuggestionsRequest "casual summer outfit" Language.en :=
  ⟨rfl, rfl⟩

/-! ## Suggestion-image map lemmas -/

theorem objGet_objSet_self {V : Type} (m : List (String × V)) (k : String)
    (v : V) : objGet (objSet m k v) k = some v := by
  induction m with
  | nil => simp [objSet, objGet]
  | cons e rest ih =>
    by_cases h : e.1 = k
    · simp [objSet, objGet, h]
    · simp [objSet, objGet, h, ih]

theorem objGet_objSet_ne {V : Type} (m : List (String × V)) (k1 k : String)
    (v : V) (h : k1 ≠ k) : objGet (objSet m k1 v) k = objGet m k := by
  induction m with
  | nil => simp [objSet, objGet, h]
  | cons e rest ih =>
    by_cases he : e.1 = k1
    · simp [objSet, objGet, he, h]
    · simp [objSet, objGet, he, ih]

theorem objGet_objDelete_ne {V : Type} (m : List (String × V)) (k1 k : String)
    (h : k1 ≠ k) : objGet (objDelete m k1) k = objGet m k := by
  induction m with
  | nil => simp [objDelete]
  | cons e rest ih =>
    by_cases he : e.1 = k1
    · simp [objDelete, objGet, he, h]
    · simp [objDelete, objGet, he, ih]

theorem applySettle_objGet_ne (m : List (String × SuggestionEntry))
    (e : SettleEvent) (k : String) (h : e.name ≠ k) :
    objGet (applySettle m e) k = objGet m k := by
  cases e with
  | success n res =>
    simp only [SettleEvent.name] at h
    cases hdu : dataURLtoFile (dataUrlOf res) (suggestionFileName n) with
    | ok f => simp [applySettle, hdu, objGet_objSet_ne m n k _ h]
    | nullResult => simp [applySettle, hdu]
    | exn => simp [applySettle, hdu, objGet_objDelete_ne m n k h]
  | failure n =>
    simp only [SettleEvent.name] at h
    simp [applySettle, objGet_objDelete_ne m n k h]

theorem settleAll_objGet_of_not_named (events : List SettleEvent) :
    ∀ (m : List (String × SuggestionEntry)) (k : String),
      (∀ e ∈ events, e.name ≠ k) →
      objGet (settleAll m events) k = objGet m k := by
  induction events with
  | nil => intro m k _; rfl
  | cons e rest ih =>
    intro m k hall
    have h1 : e.name ≠ k := hall e (List.mem_cons_self e rest)
    have h2 : ∀ x ∈ rest, SettleEvent.name x ≠ k :=
      fun x hx => hall x (List.mem_cons_of_mem e hx)
    calc objGet (settleAll m (e :: rest)) k
        = objGet (settleAll (applySettle m e) rest) k := rfl
      _ = objGet (applySettle m e) k := ih (applySettle m e) k h2
      _ = objGet m k := applySettle_objGet_ne m e k h1

/-- C6: for a batch of three distinct-named suggestions in which the
generations for `a` and `b` resolve with parseable images and the generation
for `c` rejects, every settlement order leaves a map with exactly the two
successful entries, each holding its own generated image, and no entry for
the failed suggestion. -/
theorem suggestions_partial_failure (a b c : String) (ra rb : ImgResult)
    (fa fb : FileData)
    (hab : a ≠ b) (hac : a ≠ c) (hbc : b ≠ c)
    (hpa : dataURLtoFile (dataUrlOf ra) (suggestionFileName a) =
      DataUrlResult.ok fa)
    (hpb : dataURLtoFile (dataUrlOf rb) (suggestionFileName b) =
      DataUrlResult.ok fb)
    (events : List SettleEvent)
    (hperm : events.Perm [SettleEvent.success a ra, SettleEvent.success b rb,
      SettleEvent.failure c]) :
    objGet (settleAll (initSuggestionImages [a, b, c]) events) a =
        some (SuggestionEntry.ready (dataUrlOf ra) ra.mimeType fa) ∧
    objGet (settleAll (initSuggestionImages [a, b, c]) events) b =
        some (SuggestionEntry.ready (dataUrlOf rb) rb.mimeType fb) ∧
    objGet (settleAll (initSuggestionImages [a, b, c]) events) c = none ∧
    (settleAll (initSuggestionImages [a, b, c]) events).length = 2 := by
  have hm0 : initSuggestionImages [a, b, c] =
      [(a, SuggestionEntry.loading), (b, SuggestionEntry.loading),
       (c, SuggestionEntry.loading)] := by
    simp [initSuggestionImages, objSet, hab, hac, hbc]
  have hmem := List.mem_permutations'.2 hperm
  simp [List.permutations', List.permutations'Aux] at hmem
  rcases hmem with rfl | rfl | rfl | rfl | rfl | rfl <;>
    simp [settleAll, hm0, applySettle, hpa, hpb, objSet, objDelete, objGet,
      hab, hac, hbc]

/-- Witness for C6 at a concrete batch, in the order success, success,
failure. -/
theorem suggestions_partial_failure_witness :
    objGet (settleAll (initSuggestionImages ["hat", "scarf", "boots"])
        [SettleEvent.success "hat" ⟨"QUFB", "image/png"⟩,
         SettleEvent.success "scarf" ⟨"QkJC", "image/png"⟩,
         SettleEvent.failure "boots"]) "hat" =
      some (SuggestionEntry.ready "data:image/png;base64,QUFB" "image/png"
        ⟨[65, 65, 65], "hat.png", "image/png"⟩) ∧
    objGet (settleAll (initSuggestionImages ["hat", "scarf", "boots"])
        [SettleEvent.success "hat" ⟨"QUFB", "image/png"⟩,
         SettleEvent.success "scarf" ⟨"QkJC", "image/png"⟩,
         SettleEvent.failure "boots"]) "scarf" =
      some (SuggestionEntry.ready "data:image/png;base64,QkJC" "image/png"
        ⟨[66, 66, 66], "scarf.png", "image/png"⟩) ∧
    objGet (settleAll (initSuggestionImages ["hat", "scarf", "boots"])
        [SettleEvent.success "hat" ⟨"QUFB", "image/png"⟩,
         SettleEvent.success "scarf" ⟨"QkJC", "image/png"⟩,
         SettleEvent.failure "boots"]) "boots" = none ∧
    (settleAll (initSuggestionImages ["hat", "scarf", "boots"])
        [SettleEvent.success "hat" ⟨"QUFB", "image/png"⟩,
         SettleEvent.success "scarf" ⟨"QkJC", "image/png"⟩,
         SettleEvent.failure "boots"]).length = 2 :=
  suggestions_partial_failure "hat" "scarf" "boots"
    ⟨"QUFB", "image/png"⟩ ⟨"QkJC", "image/png"⟩
    ⟨[65, 65, 65], "hat.png", "image/png"⟩
    ⟨[66, 66, 66], "scarf.png", "image/png"⟩
    (by decide) (by decide) (by decide) (by decide) (by decide)
    _ (List.Perm.refl _)

/-- C10: when a generation call resolves but its data URL does not parse
back into a file (`dataURLtoFile` returns `null`), the suggestion's entry is
neither replaced nor removed: it is still the `'loading'` sentinel after the
whole batch has settled. -/
theorem suggestion_unparseable_image_stays_loading (names : List String)
    (n : String) (res : ImgResult) (l1 l2 : List SettleEvent)
    (hn : objGet (initSuggestionImages names) n =
      some SuggestionEntry.loading)
    (hnull : dataURLtoFile (dataUrlOf res) (suggestionFileName n) =
      DataUrlResult.nullResult)
    (hothers : ∀ e ∈ l1 ++ l2, SettleEvent.name e ≠ n) :
    objGet (settleAll (initSuggestionImages names)
        (l1 ++ SettleEvent.success n res :: l2)) n =
      some SuggestionEntry.loading := by
  have h1 : ∀ e ∈ l1, SettleEvent.name e ≠ n :=
    fun e he => hothers e (List.mem_append_left l2 he)
  have h2 : ∀ e ∈ l2, SettleEvent.name e ≠ n :=
    fun e he => hothers e (List.mem_append_right l1 he)
  have hsplit : settleAll (initSuggestionImages names)
      (l1 ++ SettleEvent.success n res :: l2) =
      settleAll (applySettle (settleAll (initSuggestionImages names) l1)
        (SettleEvent.success n res)) l2 := by
    simp [settleAll, List.foldl_append]
  rw [hsplit]
  have hskip : applySettle (settleAll (initSuggestionImages names) l1)
      (SettleEvent.success n res) =
      settleAll (initSuggestionImages names) l1 := by
    simp [applySettle, hnull]
  rw [hskip, settleAll_objGet_of_not_named l2 _ n h2,
      settleAll_objGet_of_not_named l1 _ n h1, hn]

/-- Witness for C10: a generated image whose MIME type contains a comma, so
its data URL fails the MIME regex and `dataURLtoFile` returns `null`. -/
theorem suggestion_unparseable_image_stays_loading_witness :
    objGet (settleAll (initSuggestionImages ["hat", "scarf"])
        ([] ++ SettleEvent.success "hat" ⟨"QUFB", "x,y"⟩ ::
          [SettleEvent.failure "scarf"])) "hat" =
      some SuggestionEntry.loading :=
  suggestion_unparseable_image_stays_loading ["hat", "scarf"] "hat"
    ⟨"QUFB", "x,y"⟩ [] [SettleEvent.failure "scarf"]
    (by decide) (by decide) (by decide)

/-! ## Base64 round-trip lemmas -/

theorem b64Index_b64CharOf_fin :
    ∀ i : Fin 64, b64Index (b64CharOf i.val) = some i.val := by decide

theorem b64Index_b64CharOf (i : Nat) (h : i < 64) :
    b64Index (b64CharOf i) = some i := b64Index_b64CharOf_fin ⟨i, h⟩

theorem b64CharOf_ne_pad_fin : ∀ i : Fin 64, b64CharOf i.val ≠ '=' := by
  decide

theorem b64CharOf_ne_pad (i : Nat) (h : i < 64) : b64CharOf i ≠ '=' :=
  b64CharOf_ne_pad_fin ⟨i, h⟩

theorem b64CharOf_ne_comma_fin : ∀ i : Fin 64, b64CharOf i.val ≠ ',' := by
  decide

theorem b64CharOf_ne_comma (i : Nat) (h : i < 64) : b64CharOf i ≠ ',' :=
  b64CharOf_ne_comma_fin ⟨i, h⟩

theorem chunk3Induction {P : List Nat → Prop} (h0 : P []) (h1 : ∀ b1, P [b1])
    (h2 : ∀ b1 b2, P [b1, b2])
    (h3 : ∀ b1 b2 b3 rest, P rest → P (b1 :: b2 :: b3 :: rest)) :
    ∀ l, P l
  | [] => h0
  | [b1] => h1 b1
  | [b1, b2] => h2 b1 b2
  | b1 :: b2 :: b3 :: rest =>
      h3 b1 b2 b3 rest (chunk3Induction h0 h1 h2 h3 rest)

theorem base64_roundtrip : ∀ bs : List Nat, (∀ b ∈ bs, b < 256) →
    base64DecodeList (base64EncodeList bs) = some bs := by
  apply chunk3Induction
  · intro _; rfl
  · intro b1 h
    have hb : b1 < 256 := h b1 (by simp)
    rw [base64EncodeList]
    rw [show base64DecodeList
          [b64CharOf (b1 / 4), b64CharOf (b1 % 4 * 16), '=', '='] =
        match b64Index (b64CharOf (b1 / 4)), b64Index (b64CharOf (b1 % 4 * 16)) with
        | some i1, some i2 =>
          if ('=' : Char) = '=' then
            if ('=' : Char) = '=' ∧ ([] : List Char) = [] then
              some [i1 * 4 + i2 / 16]
            else none
          else
            match b64Index '=' with
            | none => none
            | some i3 =>
              if ('=' : Char) = '=' then
                if ([] : List Char) = [] then
                  some [i1 * 4 + i2 / 16, i2 % 16 * 16 + i3 / 4]
                else none
              else
                match b64Index '=', base64DecodeList [] with
                | some i4, some bs =>
                    some ((i1 * 4 + i2 / 16) :: (i2 % 16 * 16 + i3 / 4) ::
                          (i3 % 4 * 64 + i4) :: bs)
                | _, _ => none
        | _, _ => none from rfl]
    rw [b64Index_b64CharOf (b1 / 4) (by omega),
        b64Index_b64CharOf (b1 % 4 * 16) (by omega)]
    simp
    omega
  · intro b1 b2 h
    have hb1 : b1 < 256 := h b1 (by simp)
    have hb2 : b2 < 256 := h b2 (by simp)
    have hc3 : b64CharOf (b2 % 16 * 4) ≠ '=' := b64CharOf_ne_pad _ (by omega)
    rw [base64EncodeList]
    show (match b64Index (b64CharOf (b1 / 4)),
            b64Index (b64CharOf (b1 % 4 * 16 + b2 / 16)) with
      | some i1, some i2 =>
        if b64CharOf (b2 % 16 * 4) = '=' then
          if ('=' : Char) = '=' ∧ ([] : List Char) = [] then
            some [i1 * 4 + i2 / 16]
          else none
        else
          match b64Index (b64CharOf (b2 % 16 * 4)) with
          | none => none
          | some i3 =>
            if ('=' : Char) = '=' then
              if ([] : List Char) = [] then
                some [i1 * 4 + i2 / 16, i2 % 16 * 16 + i3 / 4]
              else none
            else
              match b64Index '=', base64DecodeList [] with
              | some i4, some bs =>
                  some ((i1 * 4 + i2 / 16) :: (i2 % 16 * 16 + i3 / 4) ::
                        (i3 % 4 * 64 + i4) :: bs)
              | _, _ => none
      | _, _ => none) = some [b1, b2]
    rw [b64Index_b64CharOf (b1 / 4) (by omega),
        b64Index_b64CharOf (b1 % 4 * 16 + b2 / 16) (by omega),
        b64Index_b64CharOf (b2 % 16 * 4) (by omega)]
    simp [hc3]
    omega
  · intro b1 b2 b3 rest ih h
    have hb1 : b1 < 256 := h b1 (by simp)
    have hb2 : b2 < 256 := h b2 (by simp)
    have hb3 : b3 < 256 := h b3 (by simp)
    have hrest : ∀ b ∈ rest, b < 256 := fun b hb => h b (by simp [hb])
    have hc3 : b64CharOf (b2 % 16 * 4 + b3 / 64) ≠ '=' :=
      b64CharOf_ne_pad _ (by omega)
    have hc4 : b64CharOf (b3 % 64) ≠ '=' := b64CharOf_ne_pad _ (by omega)
    rw [base64EncodeList]
    show (match b64Index (b64CharOf (b1 / 4)),
            b64Index (b64CharOf (b1 % 4 * 16 + b2 / 16)) with
      | some i1, some i2 =>
        if b64CharOf (b2 % 16 * 4 + b3 / 64) = '=' then
          if b64CharOf (b3 % 64) = '=' ∧ base64EncodeList rest = [] then
            some [i1 * 4 + i2 / 16]
          else none
        else
          match b64Index (b64CharOf (b2 % 16 * 4 + b3 / 64)) with
          | none => none
          | some i3 =>
            if b64CharOf (b3 % 64) = '=' then
              if base64EncodeList rest = [] then
                some [i1 * 4 + i2 / 16, i2 % 16 * 16 + i3 / 4]
              else none
            else
              match b64Index (b64CharOf (b3 % 64)),
                    base64DecodeList (base64EncodeList rest) with
              | some i4, some bs =>
                  some ((i1 * 4 + i2 / 16) :: (i2 % 16 * 16 + i3 / 4) ::
                        (i3 % 4 * 64 + i4) :: bs)
              | _, _ => none
      | _, _ => none) = some (b1 :: b2 :: b3 :: rest)
    rw [b64Index_b64CharOf (b1 / 4) (by omega),
        b64Index_b64CharOf (b1 % 4 * 16 + b2 / 16) (by omega),
        b64Index_b64CharOf (b2 % 16 * 4 + b3 / 64) (by omega),
        b64Index_b64CharOf (b3 % 64) (by omega), ih hrest]
    simp [hc3, hc4]
    omega

/-! ## Data-URL round-trip lemmas -/

theorem string_toList_append (s t : String) :
    (s ++ t).toList = s.toList ++ t.toList := by
  cases s
  cases t
  rfl

theorem base64EncodeList_ne_nil : ∀ bs : List Nat, bs ≠ [] →
    base64EncodeList bs ≠ [] := by
  intro bs h
  match bs with
  | [] => exact absurd rfl h
  | [b1] => simp [base64EncodeList]
  | [b1, b2] => simp [base64EncodeList]
  | b1 :: b2 :: b3 :: rest => simp [base64EncodeList]

theorem comma_not_in_encode : ∀ bs : List Nat, (∀ b ∈ bs, b < 256) →
    ',' ∉ base64EncodeList bs := by
  apply chunk3Induction
  · intro _
    simp [base64EncodeList]
  · intro b1 h
    have hb : b1 < 256 := h b1 (by simp)
    intro hmem
    simp only [base64EncodeList, List.mem_cons, List.not_mem_nil,
      or_false] at hmem
    rcases hmem with h1 | h1 | h1 | h1
    · exact b64CharOf_ne_comma _ (by omega) h1.symm
    · exact b64CharOf_ne_comma _ (by omega) h1.symm
    · exact absurd h1 (by decide)
    · exact absurd h1 (by decide)
  · intro b1 b2 h
    have hb1 : b1 < 256 := h b1 (by simp)
    have hb2 : b2 < 256 := h b2 (by simp)
    intro hmem
    simp only [base64EncodeList, List.mem_cons, List.not_mem_nil,
      or_false] at hmem
    rcases hmem with h1 | h1 | h1 | h1
    · exact b64CharOf_ne_comma _ (by omega) h1.symm
    · exact b64CharOf_ne_comma _ (by omega) h1.symm
    · exact b64CharOf_ne_comma _ (by omega) h1.symm
    · exact absurd h1 (by decide)
  · intro b1 b2 b3 rest ih h
    have hb1 : b1 < 256 := h b1 (by simp)
    have hb2 : b2 < 256 := h b2 (by simp)
    have hb3 : b3 < 256 := h b3 (by simp)
    have hrest : ∀ b ∈ rest, b < 256 := fun b hb => h b (by simp [hb])
    intro hmem
    simp only [base64EncodeList, List.mem_cons] at hmem
    rcases hmem with h1 | h1 | h1 | h1 | h1
    · exact b64CharOf_ne_comma _ (by omega) h1.symm
    · exact b64CharOf_ne_comma _ (by omega) h1.symm
    · exact b64CharOf_ne_comma _ (by omega) h1.symm
    · exact b64CharOf_ne_comma _ (by omega) h1.symm
    · exact ih hrest h1

theorem splitOnCharList_ne_nil (sep : Char) :
    ∀ l : List Char, splitOnCharList sep l ≠ [] := by
  intro l
  induction l with
  | nil => simp [splitOnCharList]
  | cons c rest ih =>
    rw [splitOnCharList]
    rcases hr : splitOnCharList sep rest with _ | ⟨h0, t0⟩
    · simp
    · by_cases hc : c = sep <;> simp [hc]

theorem splitOnCharList_no_sep (sep : Char) : ∀ l : List Char, sep ∉ l →
    splitOnCharList sep l = [l] := by
  intro l
  induction l with
  | nil => intro _; rfl
  | cons c rest ih =>
    intro h
    have hc : ¬ (c = sep) := fun hh => h (by simp [hh])
    have hrest := ih (fun hm => h (List.mem_cons_of_mem c hm))
    simp [splitOnCharList, hrest, hc]

theorem splitOnCharList_first_sep (sep : Char) :
    ∀ (l1 l2 : List Char), sep ∉ l1 →
      splitOnCharList sep (l1 ++ sep :: l2) =
        l1 :: splitOnCharList sep l2 := by
  intro l1
  induction l1 with
  | nil =>
    intro l2 _
    rcases hr : splitOnCharList sep l2 with _ | ⟨h0, t0⟩
    · exact absurd hr (splitOnCharList_ne_nil sep l2)
    · simp [splitOnCharList, hr]
  | cons c rest ih =>
    intro l2 h
    have hc : ¬ (c = sep) := fun hh => h (by simp [hh])
    have hrest := ih l2 (fun hm => h (List.mem_cons_of_mem c hm))
    show splitOnCharList sep (c :: (rest ++ sep :: l2)) =
      (c :: rest) :: splitOnCharList sep l2
    rw [splitOnCharList, hrest]
    simp [hc]

theorem capToSemi_prefix : ∀ (l1 l2 : List Char),
    (∀ c ∈ l1, c ≠ ';' ∧ c ≠ '\n') →
    capToSemi (l1 ++ ';' :: l2) = some l1 := by
  intro l1
  induction l1 with
  | nil => intro l2 _; simp [capToSemi]
  | cons c rest ih =>
    intro l2 h
    have hc := h c (by simp)
    have hrest := ih l2 (fun x hx => h x (by simp [hx]))
    simp [capToSemi, hc.1, hc.2, hrest]

theorem regexColonSemi_dataUrl (mimeL tail : List Char)
    (hm : ∀ c ∈ mimeL, c ≠ ';' ∧ c ≠ '\n') :
    regexColonSemi ('d' :: 'a' :: 't' :: 'a' :: ':' :: (mimeL ++ ';' :: tail)) =
      some mimeL := by
  have hcap : capToSemi (mimeL ++ ';' :: tail) = some mimeL :=
    capToSemi_prefix mimeL tail hm
  simp [regexColonSemi, hcap]

/-- C7 counterexample: a file whose (well-formed) MIME type contains a
semicolon round-trips to different MIME metadata — `fileToBase64` succeeds,
but the reconstructed file's MIME type is truncated at the semicolon by the
non-greedy regex of `dataURLtoFile`. -/
theorem codec_roundtrip_cex :
    fileToBase64 ⟨[72], "x.txt", "text/plain;charset=utf-8"⟩ =
      Except.ok "SA==" ∧
    dataURLtoFile ("data:" ++ "text/plain;charset=utf-8" ++ ";base64," ++
        "SA==") "y.png" =
      DataUrlResult.ok ⟨[72], "y.png", "text/plain"⟩ ∧
    ("text/plain" : String) ≠ "text/plain;charset=utf-8" :=
  ⟨rfl, by decide, by decide⟩

/-- C7 (amended): for a file with non-empty byte content (values below 256)
whose MIME type contains no comma, semicolon or newline, `fileToBase64`
succeeds with the base64 payload of the bytes, and wrapping that payload as
`data:<mime>;base64,<payload>` and parsing it with `dataURLtoFile` restores
exactly the original bytes and MIME type. -/
theorem codec_roundtrip (f : FileData) (fname : String)
    (hbytes : ∀ b ∈ f.bytes, b < 256) (hne : f.bytes ≠ [])
    (hmime : ∀ ch ∈ f.mime.toList, ch ≠ ',' ∧ ch ≠ ';' ∧ ch ≠ '\n') :
    fileToBase64 f = Except.ok (String.mk (base64EncodeList f.bytes)) ∧
    dataURLtoFile ("data:" ++ f.mime ++ ";base64," ++
        String.mk (base64EncodeList f.bytes)) fname =
      DataUrlResult.ok ⟨f.bytes, fname, f.mime⟩ := by
  have happ : ("data:" ++ f.mime ++ ";base64," ++
      String.mk (base64EncodeList f.bytes)).toList =
      (['d', 'a', 't', 'a', ':'] ++
        (f.mime.toList ++ [';', 'b', 'a', 's', 'e', '6', '4'])) ++
        ',' :: base64EncodeList f.bytes := by
    have h1 : "data:".toList = ['d', 'a', 't', 'a', ':'] := rfl
    have h2 : ";base64,".toList = [';', 'b', 'a', 's', 'e', '6', '4', ','] := rfl
    have h3 : (String.mk (base64EncodeList f.bytes)).toList =
      base64EncodeList f.bytes := rfl
    simp [string_toList_append, h1, h2, h3]
  have hm1 : (',' : Char) ∉ (['d', 'a', 't', 'a', ':'] : List Char) := by decide
  have hm2 : (',' : Char) ∉ ([';', 'b', 'a', 's', 'e', '6', '4'] : List Char) := by
    decide
  have hm3 : (',' : Char) ∉ f.mime.toList :=
    fun hmem => (hmime ',' hmem).1 rfl
  have hnoSep : (',' : Char) ∉
      (['d', 'a', 't', 'a', ':'] ++
        (f.mime.toList ++ [';', 'b', 'a', 's', 'e', '6', '4'])) := by
    intro hmem
    rcases List.mem_append.mp hmem with h | h2
    · exact hm1 h
    · rcases List.mem_append.mp h2 with h | h
      · exact hm3 h
      · exact hm2 h
  have hencNoComma : (',' : Char) ∉ base64EncodeList f.bytes :=
    comma_not_in_encode f.bytes hbytes
  have hsplit : splitOnComma ("data:" ++ f.mime ++ ";base64," ++
      String.mk (base64EncodeList f.bytes)) =
      [String.mk (['d', 'a', 't', 'a', ':'] ++
        (f.mime.toList ++ [';', 'b', 'a', 's', 'e', '6', '4'])),
       String.mk (base64EncodeList f.bytes)] := by
    rw [splitOnComma, happ, splitOnCharList_first_sep ',' _ _ hnoSep,
        splitOnCharList_no_sep ',' _ hencNoComma]
    rfl
  have hmk_ne : String.mk (base64EncodeList f.bytes) ≠ "" := by
    intro hh
    apply base64EncodeList_ne_nil f.bytes hne
    have := congrArg String.toList hh
    simpa using this
  have hfb : fileToBase64 f = Except.ok (String.mk (base64EncodeList f.bytes)) := by
    rw [fileToBase64]
    rw [hsplit]
    simp [hmk_ne]
  refine ⟨hfb, ?_⟩
  have hmimeL : ∀ c ∈ f.mime.toList, c ≠ ';' ∧ c ≠ '\n' :=
    fun c hc => ⟨(hmime c hc).2.1, (hmime c hc).2.2⟩
  have hregex : regexColonSemi ('d' :: 'a' :: 't' :: 'a' :: ':' ::
      (f.mime.toList ++ ';' :: ['b', 'a', 's', 'e', '6', '4'])) =
      some f.mime.toList :=
    regexColonSemi_dataUrl f.mime.toList ['b', 'a', 's', 'e', '6', '4'] hmimeL
  have hmimeMatch : mimeMatch (String.mk (['d', 'a', 't', 'a', ':'] ++
      (f.mime.toList ++ [';', 'b', 'a', 's', 'e', '6', '4']))) =
      some (String.mk f.mime.toList) := by
    rw [mimeMatch]
    have : (String.mk (['d', 'a', 't', 'a', ':'] ++
        (f.mime.toList ++ [';', 'b', 'a', 's', 'e', '6', '4']))).toList =
        'd' :: 'a' :: 't' :: 'a' :: ':' ::
          (f.mime.toList ++ ';' :: ['b', 'a', 's', 'e', '6', '4']) := rfl
    rw [this, hregex]
    rfl
  have hdec : base64DecodeList
      (String.mk (base64EncodeList f.bytes)).toList = some f.bytes := by
    have : (String.mk (base64EncodeList f.bytes)).toList =
      base64EncodeList f.bytes := rfl
    rw [this]
    exact base64_roundtrip f.bytes hbytes
  have hmm2 : mimeMatch ⟨'d' :: 'a' :: 't' :: 'a' :: ':' ::
      (f.mime.data ++ [';', 'b', 'a', 's', 'e', '6', '4'])⟩ = some f.mime :=
    hmimeMatch
  have hdec2 : base64DecodeList (base64EncodeList f.bytes) = some f.bytes :=
    base64_roundtrip f.bytes hbytes
  simp [dataURLtoFile, hsplit, hmm2, hdec2]

/-- Witness for the amended C7 at a concrete two-byte file. -/
theorem codec_roundtrip_witness :
    fileToBase64 ⟨[72, 105], "x.bin", "application/octet-stream"⟩ =
      Except.ok (String.mk
        (base64EncodeList [72, 105])) ∧
    dataURLtoFile ("data:" ++ "application/octet-stream" ++ ";base64," ++
        String.mk (base64EncodeList [72, 105])) "y.png" =
      DataUrlResult.ok ⟨[72, 105], "y.png", "application/octet-stream"⟩ :=
  codec_roundtrip ⟨[72, 105], "x.bin", "application/octet-stream"⟩ "y.png"
    (by decide) (by decide) (by decide)

/-! ## Session save / load and storage-error claims -/

theorem objSet_objSet_same {V : Type} (m : List (String × V)) (k : String)
    (v1 v2 : V) : objSet (objSet m k v1) k v2 = objSet m k v2 := by
  induction m with
  | nil => simp [objSet]
  | cons e rest ih =>
    by_cases he : e.1 = k
    · simp [objSet, he]
    · simp [objSet, he, ih]

/-- C4: with both images present and a successful storage write, saving and
then loading restores the two preview URLs, the background-removal flag and
the style theme to exactly their values at save time and switches to the
try-on view; a second save with any later state overwrites the single
saved-session slot and the single `trayonSavedSession` store key, leaving no
residue of the first write.  (The parse hypotheses exclude preview strings
whose base64 payload would make `atob` throw; the previews the app produces
are blob URLs or previously validated data URLs.) -/
theorem session_save_load_roundtrip (s : AppState)
    (store : List (String × String)) (p c : UploadedImage)
    (hp : s.personImage = some p) (hc : s.clothingImage = some c)
    (hpe : dataURLtoFile p.previewUrl "person.png" ≠ DataUrlResult.exn)
    (hce : dataURLtoFile c.previewUrl "clothing.png" ≠ DataUrlResult.exn) :
    ((handleLoadSession (handleSaveSession s store true).1).personImage.map
        UploadedImage.previewUrl = some p.previewUrl) ∧
    ((handleLoadSession (handleSaveSession s store true).1).clothingImage.map
        UploadedImage.previewUrl = some c.previewUrl) ∧
    (handleLoadSession (handleSaveSession s store true).1).removeBgEnabled =
      s.removeBgEnabled ∧
    (handleLoadSession (handleSaveSession s store true).1).styleTheme =
      s.styleTheme ∧
    (handleLoadSession (handleSaveSession s store true).1).view = View.tryOn ∧
    (∀ (s2 : AppState) (p2 c2 : UploadedImage),
      s2.personImage = some p2 → s2.clothingImage = some c2 →
      (handleSaveSession s2 (handleSaveSession s store true).2 true).1.savedSession =
        some ⟨p2.previewUrl, c2.previewUrl, s2.removeBgEnabled, s2.styleTheme⟩ ∧
      (handleSaveSession s2 (handleSaveSession s store true).2 true).2 =
        objSet store "trayonSavedSession"
          (encodeSession ⟨p2.previewUrl, c2.previewUrl, s2.removeBgEnabled,
            s2.styleTheme⟩)) := by
  have hsave : handleSaveSession s store true =
      ({ s with savedSession := some (SavedSession.mk p.previewUrl c.previewUrl s.removeBgEnabled s.styleTheme) },
       objSet store "trayonSavedSession" (encodeSession (SavedSession.mk p.previewUrl c.previewUrl s.removeBgEnabled s.styleTheme))) := by
    simp [handleSaveSession, hp, hc]
  have hmain :
      ((handleLoadSession (handleSaveSession s store true).1).personImage.map
        UploadedImage.previewUrl = some p.previewUrl) ∧
      ((handleLoadSession (handleSaveSession s store true).1).clothingImage.map
        UploadedImage.previewUrl = some c.previewUrl) ∧
      (handleLoadSession (handleSaveSession s store true).1).removeBgEnabled =
        s.removeBgEnabled ∧
      (handleLoadSession (handleSaveSession s store true).1).styleTheme =
        s.styleTheme ∧
      (handleLoadSession (handleSaveSession s store true).1).view = View.tryOn := by
    rw [hsave]
    rcases hdp : dataURLtoFile p.previewUrl "person.png" with f | _ | _ <;>
      rcases hdc : dataURLtoFile c.previewUrl "clothing.png" with g | _ | _ <;>
        first
        | exact absurd hdp hpe
        | exact absurd hdc hce
        | simp [handleLoadSession, hdp, hdc, hp, hc]
  refine ⟨hmain.1, hmain.2.1, hmain.2.2.1, hmain.2.2.2.1, hmain.2.2.2.2, ?_⟩
  intro s2 p2 c2 hp2 hc2
  rw [hsave]
  simp [handleSaveSession, hp2, hc2, objSet_objSet_same]

/-- Witness for C4: the sample editing state, an empty store, and a second
save from the toggled state. -/
theorem session_save_load_roundtrip_witness :
    (handleLoadSession (handleSaveSession sampleState [] true).1).removeBgEnabled =
      sampleState.removeBgEnabled ∧
    (handleLoadSession (handleSaveSession sampleState [] true).1).styleTheme =
      sampleState.styleTheme ∧
    (handleLoadSession (handleSaveSession sampleState [] true).1).view =
      View.tryOn ∧
    (handleSaveSession sampleStateNoBg
        (handleSaveSession sampleState [] true).2 true).2 =
      objSet [] "trayonSavedSession"
        (encodeSession ⟨"blob:person-preview", "blob:clothing-preview",
          false, StyleTheme.photorealistic⟩) :=
  have h := session_save_load_roundtrip sampleState [] samplePerson
    sampleClothing rfl rfl (by decide) (by decide)
  ⟨h.2.2.1, h.2.2.2.1, h.2.2.2.2.1,
   (h.2.2.2.2.2 sampleStateNoBg samplePerson sampleClothing rfl rfl).2⟩

/-- C8 counterexample: a local-storage write failure during the explicit
session save is surfaced to the user — `handleSaveSession` sets the current
error to a non-empty message, contradicting that storage failures are only
ever logged. -/
theorem storage_error_surfaced_cex :
    sampleState.error = none ∧
    (handleSaveSession sampleState [] false).1.error = some errorSaveSession ∧
    errorSaveSession ≠ "" :=
  ⟨rfl, rfl, by decide⟩

/-- C8 (amended): a failing storage write in the explicit session save is
caught — the handler returns normally with the store and the saved-session
slot unchanged — but it is surfaced to the user as a non-empty error
message; and the two unguarded `removeItem` calls in `handleStartNew` let a
storage failure escape that handler. -/
theorem storage_error_policy (s : AppState) (store : List (String × String))
    (p c : UploadedImage) (hp : s.personImage = some p)
    (hc : s.clothingImage = some c) :
    (handleSaveSession s store false).1 =
      { s with error := some errorSaveSession } ∧
    (handleSaveSession s store false).1.savedSession = s.savedSession ∧
    (handleSaveSession s store false).2 = store ∧
    errorSaveSession ≠ "" ∧
    handleStartNew s store false =
      Except.error "localStorage.removeItem failed inside handleStartNew" := by
  refine ⟨?_, ?_, ?_, by decide, rfl⟩ <;> simp [handleSaveSession, hp, hc]

/-- Witness for the amended C8 at the sample state. -/
theorem storage_error_policy_witness :
    (handleSaveSession sampleState [] false).1 =
      { sampleState with error := some errorSaveSession } ∧
    (handleSaveSession sampleState [] false).2 = ([] : List (String × String)) ∧
    handleStartNew sampleState [] false =
      Except.error "localStorage.removeItem failed inside handleStartNew" :=
  have h := storage_error_policy sampleState [] samplePerson sampleClothing
    rfl rfl
  ⟨h.1, h.2.2.1, h.2.2.2.2⟩

end Theorems

end Trayon
